import Mathlib

/-!
# Product admin table (`app.js`): list pipeline, sort toggle, state synchronisation

A shallow embedding of the client-side state of `app.js` and of the functions that
read and write it: `filterAndRenderProducts`, `renderTable`, `renderPagination`,
`addPageButton`, `toggleSort`, the `input` / `change` listeners installed by
`attachEventListeners`, `loadProducts`, `handleEditSubmit`, `handleCreateSubmit`
and `exportToCSV`.

Conventions.

* JavaScript arrays are lists; array lengths and indices are natural numbers, every
  other number of the program (`currentPage`, `itemsPerPage`, prices, comparator
  results) is an integer.  `Math.ceil(a / b)` is the ceiling of the exact quotient;
  for array lengths (below `2^32`) and a positive divisor the double-precision
  quotient has the same ceiling.  For `b = 0` JavaScript yields `Infinity` or `NaN`,
  which the embedding does not represent: statements about page counts assume a
  positive page size.
* The two host string operations whose result depends on Unicode tables,
  `String.prototype.toLowerCase` and `String.prototype.localeCompare`, are
  parameters (`Host`).
* The DOM is write-only for the functions embedded here, apart from the click
  handlers that `renderPagination` installs; what is rendered is returned as a value
  (`Dom`), and a click is possible only on a handler of the last rendering.
* `currentProductId` and the modal instances play no part in the list pipeline
  and are left out of `State`.
-/

namespace ProductAdmin

/-! ## Data model -/

/-- Category reference carried by a product (`product.category`). -/
structure Category where
  id : Int
  name : String
deriving DecidableEq, Repr

/-- Product record as returned by the remote API. -/
structure Product where
  id : Int
  title : String
  price : Int
  description : Option String
  category : Option Category
  images : Option (List String)
deriving DecidableEq, Repr

/-- Values of `sortOrder.title` / `sortOrder.price` other than `null`. -/
inductive Dir where
  | asc
  | desc
deriving DecidableEq, Repr

/-- The argument of `toggleSort`. -/
inductive Field where
  | title
  | price
deriving DecidableEq, Repr

/-- The global `sortOrder` object; `none` is `null`. -/
structure SortOrder where
  title : Option Dir
  price : Option Dir
deriving DecidableEq, Repr

/-- The application state (the `let` globals at the top of `app.js`). -/
structure State where
  allProducts : List Product
  filteredProducts : List Product
  currentPage : Int
  itemsPerPage : Int
  sortOrder : SortOrder
  searchQuery : String
deriving DecidableEq, Repr

/-- Host string operations that depend on Unicode tables. -/
structure Host where
  toLowerCase : String → String
  localeCompare : String → String → Int

/-- Initial values of the globals. -/
def initialState : State :=
  { allProducts := []
    filteredProducts := []
    currentPage := 1
    itemsPerPage := 10
    sortOrder := { title := none, price := none }
    searchQuery := "" }

/-! ## Host library functions -/

/-- `s.includes(t)`: `t` occurs in `s` as a contiguous run of characters. -/
def includes (s t : String) : Bool :=
  decide (t.toList <:+: s.toList)

/-- Code points removed by `String.prototype.trim` (WhiteSpace and LineTerminator). -/
def isJsWhiteSpace (c : Char) : Bool :=
  let n := c.toNat
  n = 0x09 || n = 0x0A || n = 0x0B || n = 0x0C || n = 0x0D || n = 0x20 || n = 0xA0 ||
  n = 0x1680 || (0x2000 ≤ n && n ≤ 0x200A) || n = 0x2028 || n = 0x2029 || n = 0x202F ||
  n = 0x205F || n = 0x3000 || n = 0xFEFF

/-- `s.trim()`. -/
def jsTrim (s : String) : String :=
  String.mk ((s.toList.dropWhile isJsWhiteSpace).rdropWhile isJsWhiteSpace)

/-- `arr.slice(start, end)` with integer arguments: negative arguments count from
the end of the array, and both are clamped to `[0, length]`. -/
def jsSlice {α : Type} (l : List α) (start stop : Int) : List α :=
  let len : Int := l.length
  let k : Int := if start < 0 then max (len + start) 0 else min start len
  let final : Int := if stop < 0 then max (len + stop) 0 else min stop len
  (l.drop k.toNat).take (final - k).toNat

/-- `arr.sort(cmp)`: the stable sort that puts `a` before `b` when `cmp a b ≤ 0`
(insertion from the right, an element going in front of the elements it ties with).
For a consistent comparator this is the order ECMAScript prescribes; for an
inconsistent one the order is implementation-defined. -/
def jsSort {α : Type} (cmp : α → α → Int) (l : List α) : List α :=
  l.insertionSort (fun a b => cmp a b ≤ 0)

/-- `Math.ceil(a / b)`. -/
def ceilDiv (a b : Int) : Int :=
  ⌈(a : ℚ) / (b : ℚ)⌉

/-- `arr.findIndex(pred)`, with `none` for `-1`. -/
def findIndex {α : Type} (pred : α → Bool) (l : List α) : Option Nat :=
  let i := l.findIdx pred
  if i < l.length then some i else none

/-- The integers `lo, lo + 1, ..., hi` (the values of `i` in
`for (let i = lo; i <= hi; i++)`). -/
def intRange (lo hi : Int) : List Int :=
  (List.range (hi - lo + 1).toNat).map (fun (i : Nat) => lo + (i : Int))

/-! ## The list pipeline -/

/-- The filter step of `filterAndRenderProducts`:
`allProducts.filter(product => product.title.toLowerCase().includes(searchQuery))`. -/
def filterStep (h : Host) (allProducts : List Product) (searchQuery : String) :
    List Product :=
  allProducts.filter (fun product => includes (h.toLowerCase product.title) searchQuery)

/-- Comparator of the `sortOrder.title` branch. -/
def titleComparator (h : Host) (d : Dir) (a b : Product) : Int :=
  let comparison := h.localeCompare a.title b.title
  if d = Dir.asc then comparison else -comparison

/-- Comparator of the `sortOrder.price` branch. -/
def priceComparator (d : Dir) (a b : Product) : Int :=
  if d = Dir.asc then a.price - b.price else b.price - a.price

/-- The sorting step of `filterAndRenderProducts`: by title when `sortOrder.title`
is set, else by price when `sortOrder.price` is set, else no sorting. -/
def sortStep (h : Host) (so : SortOrder) (l : List Product) : List Product :=
  match so.title with
  | some d => jsSort (titleComparator h d) l
  | none =>
    match so.price with
    | some d => jsSort (priceComparator d) l
    | none => l

/-- The value `filterAndRenderProducts` assigns to `filteredProducts`. -/
def computeFiltered (h : Host) (s : State) : List Product :=
  sortStep h s.sortOrder (filterStep h s.allProducts s.searchQuery)

/-- The rows of `renderTable`: `pageProducts`. -/
def renderTable (s : State) : List Product :=
  let startIndex := (s.currentPage - 1) * s.itemsPerPage
  let endIndex := startIndex + s.itemsPerPage
  jsSlice s.filteredProducts startIndex endIndex

/-- The constant `totalPages` of `renderPagination`. -/
def totalPages (s : State) : Int :=
  ceilDiv s.filteredProducts.length s.itemsPerPage

/-- What `renderPagination` leaves in the DOM: the numbers of the info line, and
the click handlers it installed (previous, the numbered buttons, next). -/
structure Pagination where
  startItem : Int
  endItem : Int
  total : Nat
  prevHandler : Bool
  pageButtons : List Int
  nextHandler : Bool
deriving DecidableEq, Repr

/-- The numbered buttons of `renderPagination`, in the order `addPageButton` is
called: the first page when the window does not start at it, the window of at most
five pages around the current page, the last page when the window stops short. -/
def pageButtonList (currentPage total : Int) : List Int :=
  let maxVisiblePages : Int := 5
  let startPage₀ := max 1 (currentPage - maxVisiblePages / 2)
  let endPage := min total (startPage₀ + maxVisiblePages - 1)
  let startPage :=
    if endPage - startPage₀ < maxVisiblePages - 1 then max 1 (endPage - maxVisiblePages + 1)
    else startPage₀
  (if startPage > 1 then [1] else []) ++ intRange startPage endPage ++
    (if endPage < total then [total] else [])

/-- The function `renderPagination`. -/
def renderPagination (s : State) : Pagination :=
  let n := s.filteredProducts.length
  let startItem : Int := if n = 0 then 0 else (s.currentPage - 1) * s.itemsPerPage + 1
  let endItem : Int := min (s.currentPage * s.itemsPerPage) n
  if totalPages s ≤ 1 then
    { startItem := startItem, endItem := endItem, total := n
      prevHandler := false, pageButtons := [], nextHandler := false }
  else
    { startItem := startItem, endItem := endItem, total := n
      prevHandler := decide (s.currentPage > 1)
      pageButtons := pageButtonList s.currentPage (totalPages s)
      nextHandler := decide (s.currentPage < totalPages s) }

/-- The part of the document the pipeline writes: table rows and pagination. -/
structure Dom where
  pageProducts : List Product
  pagination : Pagination
deriving DecidableEq, Repr

/-- The document before the first rendering: no rows, no pagination controls. -/
def emptyDom : Dom :=
  { pageProducts := []
    pagination := { startItem := 0, endItem := 0, total := 0
                    prevHandler := false, pageButtons := [], nextHandler := false } }

/-- The function `filterAndRenderProducts`: recompute `filteredProducts` from
`allProducts`, then render table and pagination. -/
def filterAndRenderProducts (h : Host) (s : State) : State × Dom :=
  let s' := { s with filteredProducts := computeFiltered h s }
  (s', { pageProducts := renderTable s', pagination := renderPagination s' })

/-! ## Event handlers -/

/-- The `input` listener of the search box. -/
def onSearchInput (h : Host) (s : State) (value : String) : State × Dom :=
  filterAndRenderProducts h
    { s with searchQuery := jsTrim (h.toLowerCase value), currentPage := 1 }

/-- The `change` listener of the page-size selector; `n` is `parseInt(e.target.value)`. -/
def onItemsPerPageChange (h : Host) (s : State) (n : Int) : State × Dom :=
  filterAndRenderProducts h { s with itemsPerPage := n, currentPage := 1 }

/-- The state part of `toggleSort(field)`: reset the other field, advance this
one through `null`, `asc`, `desc`. -/
def toggleSortOrder (so : SortOrder) (field : Field) : SortOrder :=
  let so₁ : SortOrder :=
    match field with
    | Field.title => { so with price := none }
    | Field.price => { so with title := none }
  let next (cur : Option Dir) : Option Dir :=
    match cur with
    | none => some Dir.asc
    | some Dir.asc => some Dir.desc
    | some Dir.desc => none
  match field with
  | Field.title => { so₁ with title := next so₁.title }
  | Field.price => { so₁ with price := next so₁.price }

/-- The function `toggleSort`. -/
def toggleSort (h : Host) (s : State) (field : Field) : State × Dom :=
  filterAndRenderProducts h
    { s with sortOrder := toggleSortOrder s.sortOrder field, currentPage := 1 }

/-- Click handler of the previous-page button (`currentPage--`). -/
def onPrevClick (h : Host) (s : State) : State × Dom :=
  filterAndRenderProducts h { s with currentPage := s.currentPage - 1 }

/-- Click handler of the next-page button (`currentPage++`). -/
def onNextClick (h : Host) (s : State) : State × Dom :=
  filterAndRenderProducts h { s with currentPage := s.currentPage + 1 }

/-- Click handler installed by `addPageButton(pageNum)`. -/
def onPageClick (h : Host) (s : State) (pageNum : Int) : State × Dom :=
  filterAndRenderProducts h { s with currentPage := pageNum }

/-- Outcome of a request to the remote API: the record of a successful response,
or a failure (rejected fetch, non-2xx status, unparsable body). -/
inductive Outcome (α : Type) where
  | ok (value : α)
  | failure
deriving Repr

/-- The function `loadProducts`, given the outcome of the request and the
document `d` it starts from.  On failure the table shows an error instead of rows. -/
def loadProducts (h : Host) (s : State) (d : Dom) (r : Outcome (List Product)) :
    State × Dom :=
  match r with
  | Outcome.ok products => filterAndRenderProducts h { s with allProducts := products }
  | Outcome.failure => (s, { d with pageProducts := [] })

/-- The function `handleEditSubmit`, given the id in the form and the outcome of
the `PUT` request.  `productId` is the number that the form field denotes: the
comparison `p.id == productId` converts the field's string to a number. -/
def handleEditSubmit (h : Host) (s : State) (d : Dom) (productId : Int)
    (r : Outcome Product) : State × Dom :=
  match r with
  | Outcome.ok updatedProduct =>
    let allProducts :=
      match findIndex (fun p : Product => decide (p.id = productId)) s.allProducts with
      | some index => s.allProducts.set index updatedProduct
      | none => s.allProducts
    filterAndRenderProducts h { s with allProducts := allProducts }
  | Outcome.failure => (s, d)

/-- The state part of `handleCreateSubmit`, given the outcome of the `POST`
request. -/
def handleCreateSubmit (h : Host) (s : State) (d : Dom) (r : Outcome Product) :
    State × Dom :=
  match r with
  | Outcome.ok createdProduct =>
    filterAndRenderProducts h { s with allProducts := createdProduct :: s.allProducts }
  | Outcome.failure => (s, d)

/-- The entry `sortOrder[field]`. -/
def SortOrder.get (so : SortOrder) : Field → Option Dir
  | Field.title => so.title
  | Field.price => so.price

/-- The state after the calls `toggleSort(f)` for `f` in `fields`, in order. -/
def toggleSortRun (h : Host) (s : State) (fields : List Field) : State :=
  fields.foldl (fun st f => (toggleSort h st f).1) s

/-- The other sort field. -/
def Field.other : Field → Field
  | Field.title => Field.price
  | Field.price => Field.title

/-! ## Runs of the application -/

/-- The events that change the state: the outcome of the initial request, user
input, clicks on pagination handlers, and the outcomes of edit and create requests. -/
inductive Event where
  | load (r : Outcome (List Product))
  | search (value : String)
  | pageSize (n : Int)
  | sort (field : Field)
  | prev
  | next
  | page (pageNum : Int)
  | edit (productId : Int) (r : Outcome Product)
  | create (r : Outcome Product)
deriving Repr

/-- Whether an event can occur on a document: a click needs a handler installed by
the rendering that produced the document; the page-size selector offers positive
sizes. -/
def Event.enabled (d : Dom) : Event → Bool
  | Event.pageSize n => decide (0 < n)
  | Event.prev => d.pagination.prevHandler
  | Event.next => d.pagination.nextHandler
  | Event.page pageNum => decide (pageNum ∈ d.pagination.pageButtons)
  | _ => true

/-- The handler that runs on an event. -/
def dispatch (h : Host) (a : State × Dom) : Event → State × Dom
  | Event.load r => loadProducts h a.1 a.2 r
  | Event.search value => onSearchInput h a.1 value
  | Event.pageSize n => onItemsPerPageChange h a.1 n
  | Event.sort field => toggleSort h a.1 field
  | Event.prev => onPrevClick h a.1
  | Event.next => onNextClick h a.1
  | Event.page pageNum => onPageClick h a.1 pageNum
  | Event.edit productId r => handleEditSubmit h a.1 a.2 productId r
  | Event.create r => handleCreateSubmit h a.1 a.2 r

/-- States and documents reachable from the start of the application. -/
inductive Reachable (h : Host) : State × Dom → Prop where
  | init : Reachable h (initialState, emptyDom)
  | step (a : State × Dom) (e : Event) :
      Reachable h a → e.enabled a.2 = true → Reachable h (dispatch h a e)

/-- The number of products that match the current search text. -/
def matchCount (h : Host) (s : State) : Nat :=
  (filterStep h s.allProducts s.searchQuery).length

/-- An event that does not lower the number of products matching the search text
by replacing products: every event other than a bulk load or an edit, and a bulk
load or edit after which at least as many products match as before. -/
def Event.keepsMatches (h : Host) (a : State × Dom) : Event → Prop
  | Event.load r => matchCount h a.1 ≤ matchCount h (dispatch h a (Event.load r)).1
  | Event.edit productId r =>
      matchCount h a.1 ≤ matchCount h (dispatch h a (Event.edit productId r)).1
  | _ => True

/-- States and documents reachable by events that keep the matches. -/
inductive ReachableKeeping (h : Host) : State × Dom → Prop where
  | init : ReachableKeeping h (initialState, emptyDom)
  | step (a : State × Dom) (e : Event) :
      ReachableKeeping h a → e.enabled a.2 = true → e.keepsMatches h a →
      ReachableKeeping h (dispatch h a e)

/-- Lexicographic comparison of two strings by code points: negative, zero or
positive. -/
def compareCodePoints : List Char → List Char → Int
  | [], [] => 0
  | [], _ :: _ => -1
  | _ :: _, [] => 1
  | a :: as, b :: bs =>
    if a.toNat < b.toNat then -1
    else if b.toNat < a.toNat then 1
    else compareCodePoints as bs

/-- A host for concrete runs: ASCII lower-casing and comparison by code points. -/
def asciiHost : Host :=
  { toLowerCase := fun s => String.mk (s.toList.map Char.toLower)
    localeCompare := fun a b => compareCodePoints a.toList b.toList }

/-- A product with the given id, title and price and no other data. -/
def mkProduct (id : Int) (title : String) (price : Int) : Product :=
  { id := id, title := title, price := price
    description := none, category := none, images := none }

/-- The page is in range for the state, and the handlers of the document lead
to pages in range: the invariant kept by events that keep the matches. -/
def InRange (h : Host) (a : State × Dom) : Prop :=
  0 < a.1.itemsPerPage ∧
  a.1.filteredProducts.length = matchCount h a.1 ∧
  a.1.currentPage ≤ max 1 (totalPages a.1) ∧
  (a.2.pagination.nextHandler = true → a.1.currentPage < totalPages a.1) ∧
  ∀ n ∈ a.2.pagination.pageButtons, n ≤ totalPages a.1

/-- Eleven products whose titles all contain `a`. -/
def elevenProducts : List Product :=
  (List.range 11).map (fun i => mkProduct ((i : Int) + 1) "a" 10)

/-- The events of a run: the products load, the user searches for `a`, goes to
page 2, and an edit changes the title of product 11 so that it no longer matches. -/
def editRunEvents : List Event :=
  [ Event.load (Outcome.ok elevenProducts),
    Event.search "a",
    Event.next,
    Event.edit 11 (Outcome.ok (mkProduct 11 "b" 10)) ]

/-- State and document after each event of `editRunEvents`. -/
def editRun : Nat → State × Dom
  | 0 => (initialState, emptyDom)
  | n + 1 => dispatch asciiHost (editRun n) (editRunEvents.getD n Event.prev)

/-- Three products with distinct titles. -/
def threeProducts : State :=
  { initialState with
    allProducts := [mkProduct 1 "Shirt" 20, mkProduct 2 "Hat" 15, mkProduct 3 "Shoe" 60] }

/-- One product, and a search text that matches no title, before the pipeline runs. -/
def noMatchInput : State :=
  { initialState with
    allProducts := [mkProduct 1 "Shirt" 20]
    searchQuery := "zzz" }

/-- The state after `filterAndRenderProducts` ran on `noMatchInput`. -/
def noMatchState : State :=
  (filterAndRenderProducts asciiHost noMatchInput).1

/-! ## Create form and CSV export -/

/-- `s.split(sep)` on the characters of `s`, for a separator of one character: the
pieces between the occurrences of `sep`, of which there is always at least one. -/
def splitChars (sep : Char) : List Char → List (List Char)
  | [] => [[]]
  | c :: cs =>
    if c = sep then [] :: splitChars sep cs
    else
      match splitChars sep cs with
      | [] => [[c]]
      | piece :: rest => (c :: piece) :: rest

/-- `s.split(',')`. -/
def jsSplitComma (s : String) : List String :=
  (splitChars ',' s.toList).map String.mk

/-- `arr.join(sep)` on an array of strings. -/
def jsJoin (sep : String) (l : List String) : String :=
  String.mk (List.intercalate sep.toList (l.map String.toList))

/-- The URL pushed by `handleCreateSubmit` when the user supplied no image. -/
def placeholderImage : String :=
  "https://placehold.co/600x400?text=No+Image"

/-- The expression `value.split(',').map(url => url.trim()).filter(url => url)` of
`handleEditSubmit` and `handleCreateSubmit`; a string is truthy when it is not
empty. -/
def parseImages (imagesInput : String) : List String :=
  ((jsSplitComma imagesInput).map jsTrim).filter (fun url => decide (url ≠ ""))

/-- The field `images` of the data `handleCreateSubmit` submits: the parsed list,
with the placeholder pushed onto it when it is empty. -/
def createImages (imagesInput : String) : List String :=
  let images := parseImages imagesInput
  if images.length = 0 then images ++ [placeholderImage] else images

/-- The double-quote character. -/
def quoteChar : Char :=
  Char.ofNat 34

/-- The replacement of every double quote by two, as a list of characters. -/
def escapeQuoteChars (l : List Char) : List Char :=
  l.flatMap (fun c => if c = quoteChar then [quoteChar, quoteChar] else [c])

/-- The call `text.replace(/"/g, '""')` of `exportToCSV`. -/
def escapeQuotes (text : String) : String :=
  String.mk (escapeQuoteChars text.toList)

/-- The template of a text field in `exportToCSV`: the escaped text between two
double quotes. -/
def csvQuote (text : String) : String :=
  String.mk (quoteChar :: (escapeQuotes text).toList ++ [quoteChar])

/-- `String(n)` for an integer `n` (below `10^21` in absolute value), as `join`
renders the numbers of a row. -/
def numberToString (n : Int) : String :=
  toString n

/-- One element of `rows` in `exportToCSV`. -/
def csvRow (product : Product) : List String :=
  [ numberToString product.id,
    csvQuote product.title,
    numberToString product.price,
    csvQuote (match product.category with
      | some category => category.name
      | none => ""),
    csvQuote (product.description.getD ""),
    csvQuote (match product.images with
      | some images => jsJoin "; " images
      | none => "") ]

/-- The character `\uFEFF` that `exportToCSV` puts in front of the content. -/
def byteOrderMark : Char :=
  Char.ofNat 0xFEFF

/-- The constant `headers` of `exportToCSV`. -/
def csvHeaders : List String :=
  ["ID", "Title", "Price", "Category", "Description", "Images"]

/-- The function `exportToCSV`: the text of the downloaded file, or `none` when the
current page has no rows and only a warning is shown. -/
def exportToCSV (s : State) : Option String :=
  let startIndex := (s.currentPage - 1) * s.itemsPerPage
  let endIndex := startIndex + s.itemsPerPage
  let dataToExport := jsSlice s.filteredProducts startIndex endIndex
  if dataToExport.length = 0 then none
  else
    let rows := dataToExport.map csvRow
    let csvContent := jsJoin "\n" (jsJoin "," csvHeaders :: rows.map (jsJoin ","))
    some (String.singleton byteOrderMark ++ csvContent)

/-- A quoted field without its first and last character. -/
def stripOuter (l : List Char) : List Char :=
  (l.drop 1).dropLast

/-- Reading of escaped text: every two adjacent double quotes, taken from the left,
become one. -/
def unescapeQuoteChars : List Char → List Char
  | [] => []
  | [c] => [c]
  | c :: d :: rest =>
    if c = quoteChar ∧ d = quoteChar then quoteChar :: unescapeQuoteChars rest
    else c :: unescapeQuoteChars (d :: rest)

/-- Whether the double quotes of a text come in adjacent pairs, taken from the
left. -/
def quotesPaired : List Char → Bool
  | [] => true
  | [c] => decide (c ≠ quoteChar)
  | c :: d :: rest =>
    if c = quoteChar then decide (d = quoteChar) && quotesPaired rest
    else quotesPaired (d :: rest)

/-- A product whose title and description contain double quotes. -/
def quotedProduct : Product :=
  { id := 7, title := String.mk ['6', quoteChar, ' ', 'r', 'u', 'l', 'e', 'r'], price := 12
    description := some (String.mk [quoteChar, quoteChar])
    category := some { id := 2, name := "Tools" }
    images := some ["a.png", "b.png"] }

/-- A state whose current page shows `quotedProduct`. -/
def quotedPage : State :=
  { initialState with filteredProducts := [quotedProduct] }

/-! ## Library lemmas -/

theorem ceilDiv_le_iff (a b t : Int) (hb : 0 < b) : ceilDiv a b ≤ t ↔ a ≤ t * b := by
  unfold ceilDiv
  have hb' : (0 : ℚ) < (b : ℚ) := by exact_mod_cast hb
  rw [Int.ceil_le, div_le_iff₀ hb']
  exact_mod_cast Iff.rfl

theorem ceilDiv_zero (b : Int) : ceilDiv 0 b = 0 := by
  simp [ceilDiv]

theorem ceilDiv_eq (a b : Int) (hb : 0 < b) : ceilDiv a b = -((-a) / b) := by
  apply le_antisymm
  · rw [ceilDiv_le_iff _ _ _ hb]
    have := Int.ediv_mul_le (-a) (ne_of_gt hb)
    linarith
  · have h1 : a ≤ ceilDiv a b * b := (ceilDiv_le_iff a b _ hb).1 le_rfl
    have h2 : -(ceilDiv a b) ≤ (-a) / b := by
      rw [Int.le_ediv_iff_mul_le hb]
      linarith
    linarith

theorem ceilDiv_pos (a b : Int) (ha : 0 < a) (hb : 0 < b) : 1 ≤ ceilDiv a b := by
  by_contra hlt
  have h0 : ceilDiv a b ≤ 0 := by omega
  rw [ceilDiv_le_iff _ _ _ hb] at h0
  omega

theorem jsSlice_nil {α : Type} (a b : Int) : jsSlice ([] : List α) a b = [] := by
  simp [jsSlice]


theorem jsSlice_of_nonneg {α : Type} (l : List α) (a b : Int) (ha : 0 ≤ a) (hb : 0 ≤ b) :
    jsSlice l a (a + b) = (l.drop a.toNat).take b.toNat := by
  unfold jsSlice
  simp only [not_lt.mpr ha, not_lt.mpr (add_nonneg ha hb), if_false]
  by_cases h : a ≤ (l.length : Int)
  · rw [min_eq_left h]
    apply List.ext_getElem?
    intro i
    simp only [List.getElem?_take, List.getElem?_drop]
    by_cases h1 : i < b.toNat
    · by_cases h2 : i < (min (a + b) (l.length : Int) - a).toNat
      · simp [h1, h2]
      · simp only [h1, h2, if_true, if_false]
        symm
        apply List.getElem?_eq_none
        omega
    · have h2 : ¬ i < (min (a + b) (l.length : Int) - a).toNat := by omega
      simp [h1, h2]
  · have h1 : min a (l.length : Int) = l.length := by omega
    rw [h1]
    have h2 : l.length ≤ a.toNat := by omega
    simp [List.drop_eq_nil_of_le h2]

theorem renderTable_eq_drop_take (s : State) (hp : 1 ≤ s.currentPage)
    (hs : 0 < s.itemsPerPage) :
    renderTable s =
      (s.filteredProducts.drop ((s.currentPage - 1) * s.itemsPerPage).toNat).take
        s.itemsPerPage.toNat := by
  unfold renderTable
  exact jsSlice_of_nonneg _ _ _ (mul_nonneg (by omega) (by omega)) (by omega)

/-! ## Pagination of the visible page -/

/-- C1: for a page number at least 1 and a positive page size, the rows computed by
`renderTable` number `min(pageSize, max(0, filteredCount - (page-1)*pageSize))`, and
row `k` is the element of `filteredProducts` at index `(page-1)*pageSize + k`. -/
theorem renderTable_page_slice (s : State) (hp : 1 ≤ s.currentPage)
    (hs : 0 < s.itemsPerPage) :
    ((renderTable s).length : Int) =
        min s.itemsPerPage
          (max 0 ((s.filteredProducts.length : Int) - (s.currentPage - 1) * s.itemsPerPage)) ∧
      ∀ k : Nat, k < (renderTable s).length →
        0 ≤ (s.currentPage - 1) * s.itemsPerPage + k ∧
        (renderTable s)[k]? =
          s.filteredProducts[((s.currentPage - 1) * s.itemsPerPage + k).toNat]? ∧
        ((renderTable s)[k]?).isSome = true := by
  have hA : 0 ≤ (s.currentPage - 1) * s.itemsPerPage := mul_nonneg (by omega) (by omega)
  rw [renderTable_eq_drop_take s hp hs]
  generalize (s.currentPage - 1) * s.itemsPerPage = A at hA ⊢
  refine ⟨?_, ?_⟩
  · simp only [List.length_take, List.length_drop]
    omega
  · intro k hk
    have hk' := hk
    simp only [List.length_take, List.length_drop] at hk'
    refine ⟨by omega, ?_, ?_⟩
    · rw [List.getElem?_take, if_pos (by omega), List.getElem?_drop]
      congr 1
      omega
    · rw [List.getElem?_eq_getElem hk]
      rfl

/-- Instance of `renderTable_page_slice`: 25 products, page 3 of size 10. -/
theorem renderTable_page_slice_witness :
    (1 : Int) ≤ 3 ∧ (0 : Int) < 10 ∧
    ((renderTable { initialState with
        filteredProducts := List.replicate 25 (mkProduct 1 "a" 1)
        currentPage := 3 }).length : Int) =
      min 10 (max 0 (((List.replicate 25
        (mkProduct 1 "a" 1)).length : Int) - (3 - 1) * 10)) :=
  ⟨by decide, by decide,
    (renderTable_page_slice { initialState with
        filteredProducts := List.replicate 25 (mkProduct 1 "a" 1)
        currentPage := 3 } (by decide) (by decide)).1⟩

/-! ## Page count -/

/-- C2, as stated, fails: when no product matches the search text the pipeline
leaves `filteredProducts` empty and `totalPages` is `0`, not
`max(1, ceil(filteredCount / pageSize)) = 1`. -/
theorem totalPages_no_match_counterexample :
    noMatchState.filteredProducts = [] ∧ noMatchState.itemsPerPage = 10 ∧
    totalPages noMatchState = 0 ∧
    ¬ (totalPages noMatchState =
        max 1 ⌈((noMatchState.filteredProducts.length : Int) : ℚ) /
                ((noMatchState.itemsPerPage : Int) : ℚ)⌉) := by
  have h1 : noMatchState.filteredProducts = [] := by decide
  have h2 : noMatchState.itemsPerPage = 10 := by decide
  have h3 : totalPages noMatchState = 0 := by
    unfold totalPages
    rw [h1]
    exact ceilDiv_zero _
  refine ⟨h1, h2, h3, ?_⟩
  rw [h3]
  intro h
  have := le_max_left (1 : Int)
    ⌈((noMatchState.filteredProducts.length : Int) : ℚ) /
      ((noMatchState.itemsPerPage : Int) : ℚ)⌉
  omega

/-- C2, amended: for a positive page size `totalPages` is
`ceil(filteredCount / pageSize)`, the least integer `t` with
`filteredCount ≤ t * pageSize`; it equals `max(1, ceil(filteredCount / pageSize))`
when some product is left after filtering; with no product left the visible page is
empty, `totalPages` is `0` and no pagination handler is installed. -/
theorem totalPages_spec (s : State) (hs : 0 < s.itemsPerPage) :
    ((s.filteredProducts.length : Int) ≤ totalPages s * s.itemsPerPage ∧
      ∀ t : Int, (s.filteredProducts.length : Int) ≤ t * s.itemsPerPage → totalPages s ≤ t) ∧
    (s.filteredProducts ≠ [] →
      totalPages s =
        max 1 ⌈((s.filteredProducts.length : Int) : ℚ) / ((s.itemsPerPage : Int) : ℚ)⌉) ∧
    (s.filteredProducts = [] →
      renderTable s = [] ∧ totalPages s = 0 ∧
      (renderPagination s).prevHandler = false ∧ (renderPagination s).pageButtons = [] ∧
      (renderPagination s).nextHandler = false) := by
  refine ⟨⟨?_, ?_⟩, ?_, ?_⟩
  · exact (ceilDiv_le_iff _ _ _ hs).1 le_rfl
  · intro t ht
    exact (ceilDiv_le_iff _ _ _ hs).2 ht
  · intro hne
    have hlen : (0 : Int) < (s.filteredProducts.length : Int) := by
      have := List.length_pos.2 hne
      omega
    have h1 := ceilDiv_pos _ _ hlen hs
    change totalPages s = max 1 (totalPages s)
    unfold totalPages
    omega
  · intro hnil
    have h0 : totalPages s = 0 := by
      unfold totalPages
      rw [hnil]
      exact ceilDiv_zero _
    refine ⟨?_, h0, ?_, ?_, ?_⟩
    · unfold renderTable
      rw [hnil]
      exact jsSlice_nil _ _
    all_goals simp [renderPagination, h0]

/-- Instance of `totalPages_spec`: 25 filtered products at page size 10 give
3 pages. -/
theorem totalPages_spec_witness :
    (0 : Int) < 10 ∧
    totalPages { initialState with
        filteredProducts := List.replicate 25 (mkProduct 2 "b" 5) } ≤ 3 :=
  ⟨by decide,
    (totalPages_spec { initialState with
        filteredProducts := List.replicate 25 (mkProduct 2 "b" 5) } (by decide)).1.2 3
      (by decide)⟩

/-! ## The current page stays in range -/

theorem ceilDiv_mono (a a' b : Int) (hb : 0 < b) (h : a ≤ a') :
    ceilDiv a b ≤ ceilDiv a' b := by
  rw [ceilDiv_le_iff _ _ _ hb]
  exact le_trans h ((ceilDiv_le_iff a' b _ hb).1 le_rfl)

theorem length_jsSort {α : Type} (cmp : α → α → Int) (l : List α) :
    (jsSort cmp l).length = l.length := by
  unfold jsSort
  exact List.length_insertionSort _ l

theorem length_sortStep (h : Host) (so : SortOrder) (l : List Product) :
    (sortStep h so l).length = l.length := by
  unfold sortStep
  cases so.title with
  | some d => exact length_jsSort _ _
  | none =>
    cases so.price with
    | some d => exact length_jsSort _ _
    | none => rfl

theorem length_computeFiltered (h : Host) (s : State) :
    (computeFiltered h s).length = matchCount h s := by
  unfold computeFiltered matchCount
  exact length_sortStep _ _ _

theorem mem_intRange (lo hi n : Int) : n ∈ intRange lo hi ↔ lo ≤ n ∧ n ≤ hi := by
  unfold intRange
  simp only [List.mem_map, List.mem_range]
  constructor
  · rintro ⟨i, hi', rfl⟩
    omega
  · rintro ⟨h1, h2⟩
    exact ⟨(n - lo).toNat, by omega, by omega⟩

theorem eq_of_mem_ite_singleton {P : Prop} [Decidable P] (a n : Int)
    (hn : n ∈ (if P then [a] else [])) : n = a := by
  split at hn
  · simpa using hn
  · simp at hn

theorem pageButtonList_bounds (c t n : Int) (ht : 1 < t) (hn : n ∈ pageButtonList c t) :
    1 ≤ n ∧ n ≤ t := by
  unfold pageButtonList at hn
  simp only [List.mem_append, mem_intRange] at hn
  have h52 : (5 : Int) / 2 = 2 := by decide
  rw [h52] at hn
  rcases hn with (hn | hn) | hn
  · have := eq_of_mem_ite_singleton _ _ hn
    omega
  · split at hn <;> omega
  · have := eq_of_mem_ite_singleton _ _ hn
    omega

theorem inRange_filterAndRenderProducts (h : Host) (s : State) (hp : 0 < s.itemsPerPage)
    (hpage : s.currentPage ≤ max 1 (ceilDiv (matchCount h s) s.itemsPerPage)) :
    InRange h (filterAndRenderProducts h s) := by
  have htot : totalPages (filterAndRenderProducts h s).1 =
      ceilDiv (matchCount h s) s.itemsPerPage := by
    show ceilDiv ((computeFiltered h s).length : Int) s.itemsPerPage = _
    rw [length_computeFiltered]
  refine ⟨hp, length_computeFiltered h s, ?_, ?_, ?_⟩
  · rw [htot]
    exact hpage
  · intro hnext
    change (renderPagination (filterAndRenderProducts h s).1).nextHandler = true at hnext
    unfold renderPagination at hnext
    split at hnext
    · simp at hnext
    · simpa using hnext
  · intro n hn
    change n ∈ (renderPagination (filterAndRenderProducts h s).1).pageButtons at hn
    unfold renderPagination at hn
    split at hn
    · simp at hn
    · rename_i hgt
      exact (pageButtonList_bounds _ _ _ (by omega) hn).2

theorem matchCount_cons_le (h : Host) (s : State) (p : Product) :
    matchCount h s ≤ matchCount h { s with allProducts := p :: s.allProducts } := by
  unfold matchCount filterStep
  simp only [List.filter_cons]
  split <;> simp

theorem inRange_dispatch (h : Host) (a : State × Dom) (e : Event) (ha : InRange h a)
    (hen : e.enabled a.2 = true) (hk : e.keepsMatches h a) : InRange h (dispatch h a e) := by
  obtain ⟨hp, hlen, hpage, hnext, hbtn⟩ := ha
  have htot : totalPages a.1 = ceilDiv (matchCount h a.1) a.1.itemsPerPage := by
    unfold totalPages
    rw [hlen]
  have grow : ∀ m : Nat, matchCount h a.1 ≤ m →
      a.1.currentPage ≤ max 1 (ceilDiv (m : Int) a.1.itemsPerPage) := by
    intro m hm
    have := ceilDiv_mono (matchCount h a.1) m a.1.itemsPerPage hp (by exact_mod_cast hm)
    rw [htot] at hpage
    omega
  cases e with
  | load r =>
    cases r with
    | ok products =>
      exact inRange_filterAndRenderProducts h _ hp (grow _ hk)
    | failure => exact ⟨hp, hlen, hpage, hnext, hbtn⟩
  | search value =>
    exact inRange_filterAndRenderProducts h _ hp (le_max_left _ _)
  | pageSize n =>
    have hn : 0 < n := by simpa [Event.enabled] using hen
    exact inRange_filterAndRenderProducts h _ hn (le_max_left _ _)
  | sort field =>
    exact inRange_filterAndRenderProducts h _ hp (le_max_left _ _)
  | prev =>
    refine inRange_filterAndRenderProducts h _ hp ?_
    have := grow (matchCount h a.1) le_rfl
    show a.1.currentPage - 1 ≤ max 1 (ceilDiv (matchCount h a.1) a.1.itemsPerPage)
    omega
  | next =>
    refine inRange_filterAndRenderProducts h _ hp ?_
    have h1 := hnext hen
    rw [htot] at h1
    show a.1.currentPage + 1 ≤ max 1 (ceilDiv (matchCount h a.1) a.1.itemsPerPage)
    omega
  | page pageNum =>
    refine inRange_filterAndRenderProducts h _ hp ?_
    have h1 := hbtn pageNum (by simpa [Event.enabled] using hen)
    rw [htot] at h1
    show pageNum ≤ max 1 (ceilDiv (matchCount h a.1) a.1.itemsPerPage)
    omega
  | edit productId r =>
    cases r with
    | ok updatedProduct =>
      exact inRange_filterAndRenderProducts h _ hp (grow _ hk)
    | failure => exact ⟨hp, hlen, hpage, hnext, hbtn⟩
  | create r =>
    cases r with
    | ok createdProduct =>
      exact inRange_filterAndRenderProducts h _ hp (grow _ (matchCount_cons_le h a.1 _))
    | failure => exact ⟨hp, hlen, hpage, hnext, hbtn⟩

theorem inRange_initial (h : Host) : InRange h (initialState, emptyDom) := by
  refine ⟨by decide, rfl, ?_, ?_, ?_⟩
  · exact le_max_left _ _
  · intro hn
    simp [emptyDom] at hn
  · intro n hn
    simp [emptyDom] at hn

theorem inRange_of_reachableKeeping (h : Host) (a : State × Dom)
    (hr : ReachableKeeping h a) : InRange h a := by
  induction hr with
  | init => exact inRange_initial h
  | step a e _ hen hk ih => exact inRange_dispatch h a e ih hen hk

theorem reachable_of_reachableKeeping (h : Host) (a : State × Dom)
    (hr : ReachableKeeping h a) : Reachable h a := by
  induction hr with
  | init => exact Reachable.init
  | step a e _ hen _ ih => exact Reachable.step a e ih hen

theorem editRun_two_state :
    (editRun 2).1.filteredProducts.length = 11 ∧ (editRun 2).1.itemsPerPage = 10 ∧
    (editRun 2).1.currentPage = 1 := by
  decide

theorem editRun_two_nextHandler : (editRun 2).2.pagination.nextHandler = true := by
  show (renderPagination (editRun 2).1).nextHandler = true
  obtain ⟨h1, h2, h3⟩ := editRun_two_state
  have ht : totalPages (editRun 2).1 = 2 := by
    unfold totalPages
    rw [h1, h2, ceilDiv_eq _ _ (by decide)]
    decide
  simp [renderPagination, ht, h3]

theorem editRun_three_keeping : ReachableKeeping asciiHost (editRun 3) := by
  have r0 : ReachableKeeping asciiHost (editRun 0) := ReachableKeeping.init
  have r1 : ReachableKeeping asciiHost (editRun 1) :=
    ReachableKeeping.step (editRun 0) (Event.load (Outcome.ok elevenProducts)) r0 rfl
      (Nat.zero_le _)
  have r2 : ReachableKeeping asciiHost (editRun 2) :=
    ReachableKeeping.step (editRun 1) (Event.search "a") r1 rfl trivial
  exact ReachableKeeping.step (editRun 2) Event.next r2 editRun_two_nextHandler trivial

/-- C3, as stated, fails: after the products load, the user searches for `a`, goes
to page 2 of 2 and an edit retitles the only product of that page so that it no
longer matches, `currentPage` is still 2 while 10 products match at page size 10,
so it exceeds `max(1, ceil(filteredCount / itemsPerPage)) = 1`. -/
theorem currentPage_after_edit_counterexample :
    Reachable asciiHost (editRun 4) ∧
    (editRun 4).1.currentPage = 2 ∧ matchCount asciiHost (editRun 4).1 = 10 ∧
    (editRun 4).1.itemsPerPage = 10 ∧
    ¬ ((editRun 4).1.currentPage ≤
        max 1 ⌈((matchCount asciiHost (editRun 4).1 : Int) : ℚ) /
                (((editRun 4).1.itemsPerPage : Int) : ℚ)⌉) := by
  have hr : Reachable asciiHost (editRun 4) :=
    Reachable.step (editRun 3) (Event.edit 11 (Outcome.ok (mkProduct 11 "b" 10)))
      (reachable_of_reachableKeeping _ _ editRun_three_keeping) rfl
  have h1 : (editRun 4).1.currentPage = 2 := by decide
  have h2 : matchCount asciiHost (editRun 4).1 = 10 := by decide
  have h3 : (editRun 4).1.itemsPerPage = 10 := by decide
  refine ⟨hr, h1, h2, h3, ?_⟩
  rw [h1, h2, h3]
  have hc : ceilDiv ((10 : Nat) : Int) 10 = 1 := by
    rw [ceilDiv_eq _ _ (by decide)]
    decide
  unfold ceilDiv at hc
  rw [hc]
  decide

/-- C3, amended: in every state reachable from the initial state by events among
which every bulk load and every edit leaves at least as many products matching the
search text as before, `currentPage` is at most
`max(1, ceil(filteredCount / itemsPerPage))`, `filteredCount` being the number of
products that match the current search text. -/
theorem currentPage_in_range (h : Host) (a : State × Dom) (hr : ReachableKeeping h a) :
    a.1.currentPage ≤ max 1 (ceilDiv (matchCount h a.1) a.1.itemsPerPage) := by
  obtain ⟨_, hlen, hpage, _, _⟩ := inRange_of_reachableKeeping h a hr
  unfold totalPages at hpage
  rw [hlen] at hpage
  exact hpage

/-- Instance of `currentPage_in_range`: eleven products loaded, search for `a`,
next page. -/
theorem currentPage_in_range_witness :
    ReachableKeeping asciiHost (editRun 3) ∧
    (editRun 3).1.currentPage ≤
      max 1 (ceilDiv (matchCount asciiHost (editRun 3).1) (editRun 3).1.itemsPerPage) :=
  ⟨editRun_three_keeping, currentPage_in_range asciiHost (editRun 3) editRun_three_keeping⟩

/-! ## Filtering -/

/-- C4: the filter step returns exactly the products whose lower-cased title contains
the search text, in their original order: it is the sublist of `P` that has exactly
the matching products as members and into which every sublist of matching products
embeds; so it is a sublist of the result for the empty search text, which is `P`. -/
theorem filterStep_spec (h : Host) (P : List Product) (S : String) :
    (filterStep h P S).Sublist P ∧
    (∀ p : Product, p ∈ filterStep h P S ↔
      p ∈ P ∧ S.toList <:+: (h.toLowerCase p.title).toList) ∧
    (∀ l : List Product, l.Sublist P →
      (∀ p ∈ l, S.toList <:+: (h.toLowerCase p.title).toList) →
      l.Sublist (filterStep h P S)) ∧
    (filterStep h P S).Sublist (filterStep h P "") ∧
    filterStep h P "" = P := by
  have hall : filterStep h P "" = P := by
    unfold filterStep
    rw [List.filter_eq_self]
    intro p _
    simp [includes]
  refine ⟨?_, ?_, ?_, ?_, hall⟩
  · exact List.filter_sublist P
  · intro p
    simp [filterStep, includes]
  · intro l hl hmatch
    have hself : l.filter
        (fun product => includes (h.toLowerCase product.title) S) = l := by
      rw [List.filter_eq_self]
      intro p hp
      simpa [includes] using hmatch p hp
    rw [← hself]
    exact hl.filter _
  · rw [hall]
    exact List.filter_sublist P

/-! ## Sorting by title -/

theorem eq_of_perm_of_sorted_of_antisymm_on {α : Type} {r : α → α → Prop} :
    ∀ (l₁ l₂ : List α), l₁.Perm l₂ → l₁.Sorted r → l₂.Sorted r →
      (∀ a ∈ l₁, ∀ b ∈ l₁, r a b → r b a → a = b) → l₁ = l₂
  | [], l₂, hp, _, _, _ => hp.nil_eq
  | a :: t, [], hp, _, _, _ => absurd hp.length_eq (by simp)
  | a :: t, b :: t₂, hp, h1, h2, hanti => by
    have hab : a = b := by
      by_contra hne
      have ha : a ∈ b :: t₂ := hp.subset (List.mem_cons_self _ _)
      have hb : b ∈ a :: t := hp.symm.subset (List.mem_cons_self _ _)
      have ha' : a ∈ t₂ := by
        rcases List.mem_cons.1 ha with h | h
        · exact absurd h hne
        · exact h
      have hb' : b ∈ t := by
        rcases List.mem_cons.1 hb with h | h
        · exact absurd h.symm hne
        · exact h
      exact hne (hanti a (List.mem_cons_self _ _) b hb
        (List.rel_of_sorted_cons h1 b hb') (List.rel_of_sorted_cons h2 a ha'))
    subst hab
    have ht : t = t₂ :=
      eq_of_perm_of_sorted_of_antisymm_on t t₂ (List.Perm.cons_inv hp) h1.of_cons h2.of_cons
        (fun x hx y hy => hanti x (List.mem_cons_of_mem _ hx) y (List.mem_cons_of_mem _ hy))
    rw [ht]

theorem jsSort_neg_eq_reverse {α : Type} (cmp : α → α → Int) (l : List α)
    (hanti : ∀ a b, cmp a b ≤ 0 ↔ 0 ≤ cmp b a)
    (htrans : ∀ a b c, cmp a b ≤ 0 → cmp b c ≤ 0 → cmp a c ≤ 0)
    (hties : l.Pairwise (fun a b => cmp a b ≠ 0)) :
    jsSort (fun a b => -cmp a b) l = (jsSort cmp l).reverse := by
  unfold jsSort
  haveI t1 : IsTotal α (fun a b => cmp a b ≤ 0) :=
    ⟨fun a b => by
      by_cases hab : cmp a b ≤ 0
      · exact Or.inl hab
      · exact Or.inr ((hanti b a).2 (by omega))⟩
  haveI t2 : IsTrans α (fun a b => cmp a b ≤ 0) := ⟨htrans⟩
  haveI t3 : IsTotal α (fun a b => -cmp a b ≤ 0) :=
    ⟨fun a b => by
      by_cases hab : cmp a b ≤ 0
      · exact Or.inr (by have := (hanti a b).1 hab; omega)
      · exact Or.inl (by omega)⟩
  haveI t4 : IsTrans α (fun a b => -cmp a b ≤ 0) :=
    ⟨fun a b c hab hbc => by
      have h1 : cmp b a ≤ 0 := (hanti b a).2 (by omega)
      have h2 : cmp c b ≤ 0 := (hanti c b).2 (by omega)
      have h3 := (hanti c a).1 (htrans c b a h2 h1)
      show -cmp a c ≤ 0
      omega⟩
  have hs1 : (l.insertionSort (fun a b => -cmp a b ≤ 0)).Sorted (fun a b => -cmp a b ≤ 0) :=
    List.sorted_insertionSort _ l
  have hs2 : (l.insertionSort (fun a b => cmp a b ≤ 0)).reverse.Sorted
      (fun a b => -cmp a b ≤ 0) := by
    have hs := List.sorted_insertionSort (fun a b => cmp a b ≤ 0) l
    unfold List.Sorted at hs ⊢
    rw [List.pairwise_reverse]
    refine hs.imp ?_
    intro a b hab
    have := (hanti a b).1 hab
    omega
  have hp : (l.insertionSort (fun a b => -cmp a b ≤ 0)).Perm
      (l.insertionSort (fun a b => cmp a b ≤ 0)).reverse :=
    (List.perm_insertionSort _ l).trans
      ((List.reverse_perm _).trans (List.perm_insertionSort _ l)).symm
  refine eq_of_perm_of_sorted_of_antisymm_on _ _ hp hs1 hs2 ?_
  intro a ha b hb hab hba
  by_contra hne
  have ha' : a ∈ l := (List.perm_insertionSort _ l).subset ha
  have hb' : b ∈ l := (List.perm_insertionSort _ l).subset hb
  have hsymm : Symmetric (fun a b => cmp a b ≠ 0) := by
    intro x y hxy hyx
    apply hxy
    have h1 := (hanti x y).2 (by omega)
    have h2 := (hanti y x).1 (by omega)
    omega
  have hne0 : cmp a b ≠ 0 := hties.forall hsymm ha' hb' hne
  have hab' : -cmp a b ≤ 0 := hab
  have hba' : -cmp b a ≤ 0 := hba
  have h1 := (hanti a b).2 (by omega)
  omega

theorem compareCodePoints_antisymm :
    ∀ a b : List Char, compareCodePoints a b = -compareCodePoints b a
  | [], [] => by simp [compareCodePoints]
  | [], _ :: _ => by simp [compareCodePoints]
  | _ :: _, [] => by simp [compareCodePoints]
  | a :: as, b :: bs => by
    have ih := compareCodePoints_antisymm as bs
    simp only [compareCodePoints]
    split_ifs <;> omega

theorem compareCodePoints_trans :
    ∀ a b c : List Char, compareCodePoints a b ≤ 0 → compareCodePoints b c ≤ 0 →
      compareCodePoints a c ≤ 0
  | [], [], _, _, h2 => h2
  | [], _ :: _, [], _, h2 => by simp [compareCodePoints] at h2
  | [], _ :: _, _ :: _, _, _ => by simp [compareCodePoints]
  | _ :: _, [], _, h1, _ => by simp [compareCodePoints] at h1
  | _ :: _, _ :: _, [], _, h2 => by simp [compareCodePoints] at h2
  | a :: as, b :: bs, c :: cs, h1, h2 => by
    have ih := compareCodePoints_trans as bs cs
    simp only [compareCodePoints] at h1 h2 ⊢
    split_ifs at h1 h2 ⊢ <;> omega

/-- C5: when the title comparison is a total order (its sign is antisymmetric and
`≤ 0` is transitive) and no two filtered products have titles that compare equal,
the pipeline's `filteredProducts` for title descending is the reversal of its
`filteredProducts` for title ascending. -/
theorem title_desc_eq_reverse_asc (h : Host) (s : State) (q₁ q₂ : Option Dir)
    (hanti : ∀ a b : String, h.localeCompare a b ≤ 0 ↔ 0 ≤ h.localeCompare b a)
    (htrans : ∀ a b c : String, h.localeCompare a b ≤ 0 → h.localeCompare b c ≤ 0 →
      h.localeCompare a c ≤ 0)
    (hties : (filterStep h s.allProducts s.searchQuery).Pairwise
      (fun a b => h.localeCompare a.title b.title ≠ 0)) :
    (filterAndRenderProducts h
        { s with sortOrder := { title := some Dir.desc, price := q₁ } }).1.filteredProducts =
      ((filterAndRenderProducts h
        { s with sortOrder := { title := some Dir.asc, price := q₂ } }).1.filteredProducts).reverse := by
  show jsSort (titleComparator h Dir.desc) (filterStep h s.allProducts s.searchQuery) =
    (jsSort (titleComparator h Dir.asc) (filterStep h s.allProducts s.searchQuery)).reverse
  have hdesc : titleComparator h Dir.desc = fun a b => -titleComparator h Dir.asc a b := by
    funext a b
    simp [titleComparator]
  rw [hdesc]
  apply jsSort_neg_eq_reverse
  · intro a b
    simpa [titleComparator] using hanti a.title b.title
  · intro a b c
    simpa [titleComparator] using htrans a.title b.title c.title
  · simpa [titleComparator] using hties

/-- Instance of `title_desc_eq_reverse_asc`: three products with distinct titles,
compared by code points. -/
theorem title_desc_eq_reverse_asc_witness :
    (filterStep asciiHost threeProducts.allProducts threeProducts.searchQuery).Pairwise
      (fun a b => asciiHost.localeCompare a.title b.title ≠ 0) ∧
    (filterAndRenderProducts asciiHost
        { threeProducts with
          sortOrder := { title := some Dir.desc, price := none } }).1.filteredProducts =
      ((filterAndRenderProducts asciiHost
        { threeProducts with
          sortOrder := { title := some Dir.asc, price := none } }).1.filteredProducts).reverse :=
  ⟨by decide,
    title_desc_eq_reverse_asc asciiHost threeProducts none none
      (fun a b => by
        show compareCodePoints a.toList b.toList ≤ 0 ↔ 0 ≤ compareCodePoints b.toList a.toList
        rw [compareCodePoints_antisymm a.toList b.toList]
        omega)
      (fun a b c => compareCodePoints_trans a.toList b.toList c.toList)
      (by decide)⟩

/-! ## The sort toggle -/

theorem sortOrder_toggleSort (h : Host) (s : State) (f : Field) :
    (toggleSort h s f).1.sortOrder = toggleSortOrder s.sortOrder f :=
  rfl

theorem toggleSortOrder_exclusive (so : SortOrder) (f : Field) :
    (toggleSortOrder so f).title = none ∨ (toggleSortOrder so f).price = none := by
  cases f <;> simp [toggleSortOrder]

theorem toggleSortRun_exclusive (h : Host) (fields : List Field) :
    ∀ s : State, s.sortOrder.title = none ∨ s.sortOrder.price = none →
      (toggleSortRun h s fields).sortOrder.title = none ∨
        (toggleSortRun h s fields).sortOrder.price = none := by
  induction fields with
  | nil => intro s hs; exact hs
  | cons f fs ih =>
    intro s hs
    exact ih (toggleSort h s f).1 (toggleSortOrder_exclusive s.sortOrder f)

/-- C6: in every state reached from a state with both sort fields `null` by a
sequence of `toggleSort` calls, at most one of `sortOrder.title` and
`sortOrder.price` is non-null; and if in such a state field `A` is `asc` or `desc`,
calling `toggleSort` on the other field `B` leaves `A = null` and `B = asc`. -/
theorem toggleSort_one_field_at_a_time (h : Host) (s : State) (fields : List Field) :
    ((toggleSortRun h { s with sortOrder := { title := none, price := none } }
        fields).sortOrder.title = none ∨
      (toggleSortRun h { s with sortOrder := { title := none, price := none } }
        fields).sortOrder.price = none) ∧
    ∀ (A : Field) (d : Dir),
      (toggleSortRun h { s with sortOrder := { title := none, price := none } }
        fields).sortOrder.get A = some d →
      ((toggleSort h
          (toggleSortRun h { s with sortOrder := { title := none, price := none } } fields)
          A.other).1.sortOrder.get A = none ∧
        (toggleSort h
          (toggleSortRun h { s with sortOrder := { title := none, price := none } } fields)
          A.other).1.sortOrder.get A.other = some Dir.asc) := by
  have hex := toggleSortRun_exclusive h fields
    { s with sortOrder := { title := none, price := none } } (Or.inl rfl)
  refine ⟨hex, ?_⟩
  intro A d hA
  generalize toggleSortRun h { s with sortOrder := { title := none, price := none } } fields
    = st at hex hA ⊢
  rw [sortOrder_toggleSort]
  cases A with
  | title =>
    have hA' : st.sortOrder.title = some d := hA
    have hp : st.sortOrder.price = none := by
      rcases hex with h1 | h1
      · rw [h1] at hA'
        cases hA'
      · exact h1
    simp [toggleSortOrder, SortOrder.get, Field.other, hp]
  | price =>
    have hA' : st.sortOrder.price = some d := hA
    have hp : st.sortOrder.title = none := by
      rcases hex with h1 | h1
      · exact h1
      · rw [h1] at hA'
        cases hA'
    simp [toggleSortOrder, SortOrder.get, Field.other, hp]

/-- Instance of `toggleSort_one_field_at_a_time`: after one `toggleSort('title')` the
title field is `asc`; a `toggleSort('price')` then leaves title `null`, price `asc`. -/
theorem toggleSort_one_field_at_a_time_witness :
    (toggleSortRun asciiHost { threeProducts with sortOrder := { title := none, price := none } }
        [Field.title]).sortOrder.get Field.title = some Dir.asc ∧
    ((toggleSort asciiHost
          (toggleSortRun asciiHost
            { threeProducts with sortOrder := { title := none, price := none } } [Field.title])
          Field.title.other).1.sortOrder.get Field.title = none ∧
      (toggleSort asciiHost
          (toggleSortRun asciiHost
            { threeProducts with sortOrder := { title := none, price := none } } [Field.title])
          Field.title.other).1.sortOrder.get Field.title.other = some Dir.asc) :=
  ⟨rfl, (toggleSort_one_field_at_a_time asciiHost threeProducts [Field.title]).2
    Field.title Dir.asc rfl⟩

/-- C7: from a state in which `sortOrder[f]` is `null`, successive calls
`toggleSort(f)` take `sortOrder[f]` to `asc`, then `desc`, then `null`, and after the
third call both fields are `null`. -/
theorem toggleSort_cycle (h : Host) (s : State) (f : Field)
    (hnull : s.sortOrder.get f = none) :
    (toggleSortRun h s [f]).sortOrder.get f = some Dir.asc ∧
    (toggleSortRun h s [f, f]).sortOrder.get f = some Dir.desc ∧
    (toggleSortRun h s [f, f, f]).sortOrder.get f = none ∧
    (toggleSortRun h s [f, f, f]).sortOrder = { title := none, price := none } := by
  cases f with
  | title =>
    have ht : s.sortOrder.title = none := hnull
    simp [toggleSortRun, sortOrder_toggleSort, toggleSortOrder, SortOrder.get, ht]
  | price =>
    have ht : s.sortOrder.price = none := hnull
    simp [toggleSortRun, sortOrder_toggleSort, toggleSortOrder, SortOrder.get, ht]

/-- Instance of `toggleSort_cycle`: the price field, starting from a state sorted by
title ascending. -/
theorem toggleSort_cycle_witness :
    ({ threeProducts with sortOrder := { title := some Dir.asc, price := none } } :
        State).sortOrder.get Field.price = none ∧
    (toggleSortRun asciiHost
        { threeProducts with sortOrder := { title := some Dir.asc, price := none } }
        [Field.price, Field.price, Field.price]).sortOrder =
      { title := none, price := none } :=
  ⟨rfl,
    (toggleSort_cycle asciiHost
      { threeProducts with sortOrder := { title := some Dir.asc, price := none } }
      Field.price rfl).2.2.2⟩

/-! ## Page reset and page navigation -/

/-- C8: a search-text change, a page-size change and `toggleSort` each set
`currentPage` to 1; the previous, next and numbered-page handlers set `currentPage`
to `currentPage - 1`, `currentPage + 1` and the page number, and leave `searchQuery`,
`sortOrder`, `itemsPerPage` and `allProducts` as they were. -/
theorem page_reset_and_navigation_frame (h : Host) (s : State) :
    (∀ value : String, (onSearchInput h s value).1.currentPage = 1) ∧
    (∀ n : Int, (onItemsPerPageChange h s n).1.currentPage = 1) ∧
    (∀ field : Field, (toggleSort h s field).1.currentPage = 1) ∧
    ((onPrevClick h s).1.currentPage = s.currentPage - 1 ∧
      (onPrevClick h s).1.searchQuery = s.searchQuery ∧
      (onPrevClick h s).1.sortOrder = s.sortOrder ∧
      (onPrevClick h s).1.itemsPerPage = s.itemsPerPage ∧
      (onPrevClick h s).1.allProducts = s.allProducts) ∧
    ((onNextClick h s).1.currentPage = s.currentPage + 1 ∧
      (onNextClick h s).1.searchQuery = s.searchQuery ∧
      (onNextClick h s).1.sortOrder = s.sortOrder ∧
      (onNextClick h s).1.itemsPerPage = s.itemsPerPage ∧
      (onNextClick h s).1.allProducts = s.allProducts) ∧
    (∀ pageNum : Int,
      (onPageClick h s pageNum).1.currentPage = pageNum ∧
      (onPageClick h s pageNum).1.searchQuery = s.searchQuery ∧
      (onPageClick h s pageNum).1.sortOrder = s.sortOrder ∧
      (onPageClick h s pageNum).1.itemsPerPage = s.itemsPerPage ∧
      (onPageClick h s pageNum).1.allProducts = s.allProducts) :=
  ⟨fun _ => rfl, fun _ => rfl, fun _ => rfl, ⟨rfl, rfl, rfl, rfl, rfl⟩,
    ⟨rfl, rfl, rfl, rfl, rfl⟩, fun _ => ⟨rfl, rfl, rfl, rfl, rfl⟩⟩

/-! ## The pipeline does not change its input -/

/-- C9: `filterAndRenderProducts` leaves `allProducts`, `searchQuery`, `sortOrder`,
`currentPage` and `itemsPerPage` unchanged, and a second run on the resulting state
yields the same `filteredProducts`, the same rendered page and pagination, and the
same `totalPages` as the first. -/
theorem filterAndRenderProducts_frame_idempotent (h : Host) (s : State) :
    ((filterAndRenderProducts h s).1.allProducts = s.allProducts ∧
      (filterAndRenderProducts h s).1.searchQuery = s.searchQuery ∧
      (filterAndRenderProducts h s).1.sortOrder = s.sortOrder ∧
      (filterAndRenderProducts h s).1.currentPage = s.currentPage ∧
      (filterAndRenderProducts h s).1.itemsPerPage = s.itemsPerPage) ∧
    (filterAndRenderProducts h (filterAndRenderProducts h s).1).1.filteredProducts =
      (filterAndRenderProducts h s).1.filteredProducts ∧
    (filterAndRenderProducts h (filterAndRenderProducts h s).1).2.pageProducts =
      (filterAndRenderProducts h s).2.pageProducts ∧
    totalPages (filterAndRenderProducts h (filterAndRenderProducts h s).1).1 =
      totalPages (filterAndRenderProducts h s).1 ∧
    filterAndRenderProducts h (filterAndRenderProducts h s).1 =
      filterAndRenderProducts h s :=
  ⟨⟨rfl, rfl, rfl, rfl, rfl⟩, rfl, rfl, rfl, rfl⟩

/-! ## Edit -/

theorem findIndex_eq_some {α : Type} (pred : α → Bool) (l : List α) (i : Nat) (x : α)
    (hx : l[i]? = some x) (hpx : pred x = true)
    (hfirst : ∀ j < i, ∀ y, l[j]? = some y → pred y = false) :
    findIndex pred l = some i := by
  obtain ⟨hi, hxi⟩ := List.getElem?_eq_some.1 hx
  have hidx : l.findIdx pred = i := by
    rw [List.findIdx_eq hi]
    refine ⟨by rw [hxi]; exact hpx, ?_⟩
    intro j hji
    exact hfirst j hji _ (List.getElem?_eq_getElem (Nat.lt_trans hji hi))
  unfold findIndex
  simp [hidx, hi]

theorem findIndex_eq_none {α : Type} (pred : α → Bool) (l : List α)
    (hnone : ∀ x ∈ l, pred x = false) : findIndex pred l = none := by
  unfold findIndex
  simp [List.findIdx_eq_length_of_false hnone]

theorem length_allProducts_handleEditSubmit (h : Host) (s : State) (d : Dom)
    (productId : Int) (r : Outcome Product) :
    (handleEditSubmit h s d productId r).1.allProducts.length = s.allProducts.length := by
  cases r with
  | failure => rfl
  | ok u =>
    show (match findIndex (fun p : Product => decide (p.id = productId)) s.allProducts with
      | some index => s.allProducts.set index u
      | none => s.allProducts).length = _
    cases findIndex (fun p : Product => decide (p.id = productId)) s.allProducts with
    | none => rfl
    | some index => simp

/-- C10: after a successful `handleEditSubmit` the list `allProducts` has the same
length; if entry `i` is the first whose id is the edited id, it is the old list with
entry `i` set to the server's record (so entry `i` is that record and every other
entry is as before); if no entry has that id the list is unchanged.  After a failed
update state and document are unchanged, and so is the output of the pipeline. -/
theorem handleEditSubmit_spec (h : Host) (s : State) (d : Dom) (productId : Int) :
    (∀ u : Product,
      (handleEditSubmit h s d productId (Outcome.ok u)).1.allProducts.length =
          s.allProducts.length ∧
      (∀ (i : Nat) (p : Product), s.allProducts[i]? = some p → p.id = productId →
        (∀ j < i, ∀ q : Product, s.allProducts[j]? = some q → q.id ≠ productId) →
        (handleEditSubmit h s d productId (Outcome.ok u)).1.allProducts =
            s.allProducts.set i u ∧
          (handleEditSubmit h s d productId (Outcome.ok u)).1.allProducts[i]? = some u ∧
          ∀ k : Nat, k ≠ i →
            (handleEditSubmit h s d productId (Outcome.ok u)).1.allProducts[k]? =
              s.allProducts[k]?) ∧
      ((∀ p ∈ s.allProducts, p.id ≠ productId) →
        (handleEditSubmit h s d productId (Outcome.ok u)).1.allProducts = s.allProducts)) ∧
    handleEditSubmit h s d productId Outcome.failure = (s, d) ∧
    filterAndRenderProducts h (handleEditSubmit h s d productId Outcome.failure).1 =
      filterAndRenderProducts h s := by
  refine ⟨?_, rfl, rfl⟩
  intro u
  refine ⟨length_allProducts_handleEditSubmit h s d productId _, ?_, ?_⟩
  · intro i p hp hid hfirst
    have hfi : findIndex (fun p : Product => decide (p.id = productId)) s.allProducts = some i :=
      findIndex_eq_some _ _ i p hp (by simpa using hid)
        (fun j hj q hq => by simpa using hfirst j hj q hq)
    have hnew : (handleEditSubmit h s d productId (Outcome.ok u)).1.allProducts =
        s.allProducts.set i u := by
      show (match findIndex (fun p : Product => decide (p.id = productId)) s.allProducts with
        | some index => s.allProducts.set index u
        | none => s.allProducts) = _
      rw [hfi]
    obtain ⟨hi, _⟩ := List.getElem?_eq_some.1 hp
    refine ⟨hnew, ?_, ?_⟩
    · rw [hnew, List.getElem?_set_self hi]
    · intro k hk
      rw [hnew, List.getElem?_set_ne (Ne.symm hk)]
  · intro hnone
    have hfi : findIndex (fun p : Product => decide (p.id = productId)) s.allProducts = none :=
      findIndex_eq_none _ _ (fun x hx => by simpa using hnone x hx)
    show (match findIndex (fun p : Product => decide (p.id = productId)) s.allProducts with
      | some index => s.allProducts.set index u
      | none => s.allProducts) = _
    rw [hfi]

/-- Instance of `handleEditSubmit_spec`: editing product 2 of three replaces the
second entry by the server's record. -/
theorem handleEditSubmit_spec_witness :
    threeProducts.allProducts[1]? = some (mkProduct 2 "Hat" 15) ∧
    (handleEditSubmit asciiHost threeProducts emptyDom 2
        (Outcome.ok (mkProduct 2 "Cap" 18))).1.allProducts =
      threeProducts.allProducts.set 1 (mkProduct 2 "Cap" 18) :=
  ⟨rfl,
    (((handleEditSubmit_spec asciiHost threeProducts emptyDom 2).1
        (mkProduct 2 "Cap" 18)).2.1 1 (mkProduct 2 "Hat" 15) rfl rfl (by decide)).1⟩

/-! ## Create -/

/-- C11: after a successful `handleCreateSubmit` the list `allProducts` is the
server's record followed by the old list, one entry longer; after a failed create
state and document, hence the list, are unchanged. -/
theorem handleCreateSubmit_spec (h : Host) (s : State) (d : Dom) :
    (∀ createdProduct : Product,
      (handleCreateSubmit h s d (Outcome.ok createdProduct)).1.allProducts =
          createdProduct :: s.allProducts ∧
      (handleCreateSubmit h s d (Outcome.ok createdProduct)).1.allProducts.length =
          s.allProducts.length + 1 ∧
      (handleCreateSubmit h s d (Outcome.ok createdProduct)).1.allProducts.tail =
          s.allProducts) ∧
    handleCreateSubmit h s d Outcome.failure = (s, d) ∧
    (handleCreateSubmit h s d Outcome.failure).1.allProducts = s.allProducts := by
  refine ⟨fun createdProduct => ⟨rfl, ?_, rfl⟩, rfl, rfl⟩
  show (createdProduct :: s.allProducts).length = s.allProducts.length + 1
  exact List.length_cons _ _

/-! ## The images field of the create form -/

theorem splitChars_ne_nil (sep : Char) : ∀ l : List Char, splitChars sep l ≠ []
  | [] => by simp [splitChars]
  | c :: cs => by
    have ih := splitChars_ne_nil sep cs
    simp only [splitChars]
    split_ifs
    · simp
    · split <;> simp

theorem intercalate_cons_of_ne_nil {α : Type} (sep a : List α) (rest : List (List α))
    (hrest : rest ≠ []) :
    List.intercalate sep (a :: rest) = a ++ sep ++ List.intercalate sep rest := by
  cases rest with
  | nil => exact absurd rfl hrest
  | cons b r => simp [List.intercalate, List.intersperse]

theorem intercalate_splitChars (sep : Char) :
    ∀ l : List Char, List.intercalate [sep] (splitChars sep l) = l
  | [] => by simp [splitChars, List.intercalate]
  | c :: cs => by
    have ih := intercalate_splitChars sep cs
    have hne := splitChars_ne_nil sep cs
    simp only [splitChars]
    split_ifs with hc
    · rw [intercalate_cons_of_ne_nil _ _ _ hne, ih, hc]
      rfl
    · cases hs : splitChars sep cs with
      | nil => exact absurd hs hne
      | cons piece rest =>
        rw [hs] at ih
        simp only
        cases rest with
        | nil =>
          simp [List.intercalate] at ih ⊢
          exact ih
        | cons b r =>
          rw [intercalate_cons_of_ne_nil _ _ _ (by simp)] at ih ⊢
          rw [← ih]
          simp

theorem not_mem_of_mem_splitChars (sep : Char) :
    ∀ (l piece : List Char), piece ∈ splitChars sep l → sep ∉ piece
  | [], piece, hp => by
    simp [splitChars] at hp
    simp [hp]
  | c :: cs, piece, hp => by
    have ih := not_mem_of_mem_splitChars sep cs
    simp only [splitChars] at hp
    split_ifs at hp with hc
    · rcases List.mem_cons.1 hp with h | h
      · simp [h]
      · exact ih piece h
    · cases hs : splitChars sep cs with
      | nil =>
        rw [hs] at hp
        simp at hp
        simp [hp, Ne.symm hc]
      | cons first rest =>
        rw [hs] at hp ih
        simp only [List.mem_cons] at hp
        rcases hp with h | h
        · have := ih first (List.mem_cons_self _ _)
          simp [h, this, Ne.symm hc]
        · exact ih piece (List.mem_cons_of_mem _ h)

theorem jsTrim_ends (s : String) :
    (∀ c : Char, (jsTrim s).toList.head? = some c → isJsWhiteSpace c = false) ∧
    (∀ c : Char, (jsTrim s).toList.getLast? = some c → isJsWhiteSpace c = false) := by
  show (∀ c : Char,
      ((s.toList.dropWhile isJsWhiteSpace).rdropWhile isJsWhiteSpace).head? = some c →
        isJsWhiteSpace c = false) ∧
    (∀ c : Char,
      ((s.toList.dropWhile isJsWhiteSpace).rdropWhile isJsWhiteSpace).getLast? = some c →
        isJsWhiteSpace c = false)
  constructor
  · intro c hc
    have hne : (s.toList.dropWhile isJsWhiteSpace).rdropWhile isJsWhiteSpace ≠ [] := by
      intro h0
      rw [h0] at hc
      simp at hc
    have hpre := List.rdropWhile_prefix isJsWhiteSpace
      (l := s.toList.dropWhile isJsWhiteSpace)
    have hhead := hpre.head hne
    rw [List.head?_eq_head hne] at hc
    have hc' := Option.some.inj hc
    rw [← hc', hhead]
    exact List.head_dropWhile_not _ _ _
  · intro c hc
    have hne : (s.toList.dropWhile isJsWhiteSpace).rdropWhile isJsWhiteSpace ≠ [] := by
      intro h0
      rw [h0] at hc
      simp at hc
    rw [List.getLast?_eq_getLast _ hne] at hc
    have hc' := Option.some.inj hc
    rw [← hc']
    simpa using List.rdropWhile_last_not isJsWhiteSpace _ hne

theorem jsJoin_jsSplitComma (s : String) : jsJoin "," (jsSplitComma s) = s := by
  unfold jsJoin jsSplitComma
  have hmap : List.map String.toList (List.map String.mk (splitChars ',' s.toList)) =
      splitChars ',' s.toList := by
    rw [List.map_map]
    exact List.map_id _
  rw [hmap]
  show String.mk (List.intercalate [','] (splitChars ',' s.toList)) = s
  rw [intercalate_splitChars]
  rfl

theorem parseImages_entries (imagesInput u : String) (hu : u ∈ parseImages imagesInput) :
    u ≠ "" ∧
    (∀ c : Char, u.toList.head? = some c → isJsWhiteSpace c = false) ∧
    (∀ c : Char, u.toList.getLast? = some c → isJsWhiteSpace c = false) := by
  unfold parseImages at hu
  rw [List.mem_filter, List.mem_map] at hu
  obtain ⟨⟨piece, _, hpiece⟩, hne⟩ := hu
  refine ⟨by simpa using hne, ?_⟩
  rw [← hpiece]
  exact jsTrim_ends piece

theorem placeholderImage_entry :
    placeholderImage ≠ "" ∧
    (∀ c : Char, placeholderImage.toList.head? = some c → isJsWhiteSpace c = false) ∧
    (∀ c : Char, placeholderImage.toList.getLast? = some c → isJsWhiteSpace c = false) := by
  refine ⟨by decide, ?_, ?_⟩
  · intro c hc
    have h0 : placeholderImage.toList.head? = some 'h' := by decide
    rw [h0] at hc
    rw [← Option.some.inj hc]
    decide
  · intro c hc
    have h0 : placeholderImage.toList.getLast? = some 'e' := by decide
    rw [h0] at hc
    rw [← Option.some.inj hc]
    decide

/-- C12: the images list that `handleCreateSubmit` submits is never empty.  The raw
field is cut at its commas into pieces (joining the pieces with commas gives the
field back, and no piece contains a comma); when trimming the pieces and dropping
the empty ones leaves something, that list, in order, is submitted, otherwise the
one-element list with the placeholder URL, as for the empty field.  No submitted
entry is empty, starts with white space or ends with white space. -/
theorem createImages_spec (imagesInput : String) :
    createImages imagesInput ≠ [] ∧
    (∃ pieces : List String,
      pieces ≠ [] ∧ jsJoin "," pieces = imagesInput ∧
      (∀ piece ∈ pieces, ',' ∉ piece.toList) ∧
      ((pieces.map jsTrim).filter (fun url => decide (url ≠ "")) ≠ [] →
        createImages imagesInput =
          (pieces.map jsTrim).filter (fun url => decide (url ≠ ""))) ∧
      ((pieces.map jsTrim).filter (fun url => decide (url ≠ "")) = [] →
        createImages imagesInput = [placeholderImage])) ∧
    createImages "" = [placeholderImage] ∧
    ∀ u ∈ createImages imagesInput,
      u ≠ "" ∧
      (∀ c : Char, u.toList.head? = some c → isJsWhiteSpace c = false) ∧
      (∀ c : Char, u.toList.getLast? = some c → isJsWhiteSpace c = false) := by
  have hcases : (parseImages imagesInput ≠ [] →
        createImages imagesInput = parseImages imagesInput) ∧
      (parseImages imagesInput = [] → createImages imagesInput = [placeholderImage]) := by
    constructor
    · intro hne
      unfold createImages
      simp [hne]
    · intro hnil
      unfold createImages
      simp [hnil]
  refine ⟨?_, ⟨jsSplitComma imagesInput, ?_, jsJoin_jsSplitComma imagesInput, ?_,
    hcases.1, hcases.2⟩, by decide, ?_⟩
  · by_cases hnil : parseImages imagesInput = []
    · rw [hcases.2 hnil]
      simp
    · rw [hcases.1 hnil]
      exact hnil
  · unfold jsSplitComma
    simpa using splitChars_ne_nil ',' imagesInput.toList
  · intro piece hpiece
    unfold jsSplitComma at hpiece
    rw [List.mem_map] at hpiece
    obtain ⟨l, hl, rfl⟩ := hpiece
    exact not_mem_of_mem_splitChars ',' _ l hl
  · intro u hu
    by_cases hnil : parseImages imagesInput = []
    · rw [hcases.2 hnil] at hu
      rw [List.mem_singleton.1 hu]
      exact placeholderImage_entry
    · rw [hcases.1 hnil] at hu
      exact parseImages_entries imagesInput u hu

/-- Instance of `createImages_spec`: a field with padded and empty pieces. -/
theorem createImages_spec_witness :
    createImages " a.png , ,b.png,  " = ["a.png", "b.png"] ∧
    ("a.png" : String) ≠ "" ∧
    (∀ c : Char, ("a.png" : String).toList.head? = some c → isJsWhiteSpace c = false) ∧
    (∀ c : Char, ("a.png" : String).toList.getLast? = some c → isJsWhiteSpace c = false) :=
  ⟨by decide,
    (createImages_spec " a.png , ,b.png,  ").2.2.2 "a.png" (by decide)⟩

/-! ## CSV export -/

theorem unescapeQuoteChars_cons_of_ne (c : Char) (l : List Char) (hc : c ≠ quoteChar) :
    unescapeQuoteChars (c :: l) = c :: unescapeQuoteChars l := by
  cases l with
  | nil => simp [unescapeQuoteChars]
  | cons d rest => simp [unescapeQuoteChars, hc]

theorem escapeQuoteChars_cons (c : Char) (l : List Char) :
    escapeQuoteChars (c :: l) =
      (if c = quoteChar then [quoteChar, quoteChar] else [c]) ++ escapeQuoteChars l := by
  simp [escapeQuoteChars]

theorem unescapeQuoteChars_escapeQuoteChars :
    ∀ l : List Char, unescapeQuoteChars (escapeQuoteChars l) = l
  | [] => by simp [escapeQuoteChars, unescapeQuoteChars]
  | c :: l => by
    have ih := unescapeQuoteChars_escapeQuoteChars l
    rw [escapeQuoteChars_cons]
    by_cases hc : c = quoteChar
    · rw [if_pos hc, hc]
      show unescapeQuoteChars (quoteChar :: quoteChar :: escapeQuoteChars l) = _
      simp [unescapeQuoteChars, ih]
    · rw [if_neg hc]
      show unescapeQuoteChars (c :: escapeQuoteChars l) = _
      rw [unescapeQuoteChars_cons_of_ne c _ hc, ih]

theorem quotesPaired_cons_of_ne (c : Char) (l : List Char) (hc : c ≠ quoteChar)
    (hl : quotesPaired l = true) : quotesPaired (c :: l) = true := by
  cases l with
  | nil => simp [quotesPaired, hc]
  | cons d rest => simpa [quotesPaired, hc] using hl

theorem quotesPaired_escapeQuoteChars :
    ∀ l : List Char, quotesPaired (escapeQuoteChars l) = true
  | [] => by simp [escapeQuoteChars, quotesPaired]
  | c :: l => by
    have ih := quotesPaired_escapeQuoteChars l
    rw [escapeQuoteChars_cons]
    by_cases hc : c = quoteChar
    · rw [if_pos hc]
      show quotesPaired (quoteChar :: quoteChar :: escapeQuoteChars l) = true
      simp [quotesPaired, ih]
    · rw [if_neg hc]
      exact quotesPaired_cons_of_ne c _ hc ih

theorem stripOuter_csvQuote (text : String) :
    stripOuter (csvQuote text).toList = escapeQuoteChars text.toList := by
  show ((quoteChar :: (escapeQuoteChars text.toList ++ [quoteChar])).drop 1).dropLast = _
  simp

theorem exportToCSV_eq (s : State) :
    exportToCSV s =
      if (renderTable s).length = 0 then none
      else some (String.singleton byteOrderMark ++
        jsJoin "\n" (jsJoin "," csvHeaders ::
          ((renderTable s).map csvRow).map (jsJoin ","))) :=
  rfl

/-- C13: `exportToCSV` writes, after the header line, one line per product of the
current page; the row of a product has six fields in the order id, title, price,
category name, description, images joined by `; `.  Each of the four text fields
is a double quote, the text with every double quote doubled, and a double quote;
without its outer quotes it reads back, two quotes for one, as the original text, and
its double quotes come in pairs. -/
theorem exportToCSV_row_spec (s : State) :
    (exportToCSV s = none ↔ renderTable s = []) ∧
    (renderTable s ≠ [] →
      exportToCSV s = some (String.singleton byteOrderMark ++
        jsJoin "\n" (jsJoin "," csvHeaders ::
          (renderTable s).map (fun product => jsJoin "," (csvRow product))))) ∧
    (∀ product ∈ renderTable s,
      (csvRow product).length = 6 ∧
      (csvRow product)[0]? = some (numberToString product.id) ∧
      (csvRow product)[1]? = some (csvQuote product.title) ∧
      (csvRow product)[2]? = some (numberToString product.price) ∧
      (csvRow product)[3]? =
        some (csvQuote ((product.category.map (fun category => category.name)).getD "")) ∧
      (csvRow product)[4]? = some (csvQuote (product.description.getD "")) ∧
      (csvRow product)[5]? =
        some (csvQuote ((product.images.map (fun images => jsJoin "; " images)).getD ""))) ∧
    ∀ text : String,
      (csvQuote text).toList =
          quoteChar ::
            (text.toList.flatMap
              (fun c => if c = quoteChar then [quoteChar, quoteChar] else [c]) ++
            [quoteChar]) ∧
      unescapeQuoteChars (stripOuter (csvQuote text).toList) = text.toList ∧
      quotesPaired (stripOuter (csvQuote text).toList) = true := by
  refine ⟨?_, ?_, ?_, ?_⟩
  · rw [exportToCSV_eq]
    by_cases hnil : renderTable s = []
    · simp [hnil]
    · simp [hnil]
  · intro hne
    rw [exportToCSV_eq, if_neg (by simpa using hne), List.map_map]
    rfl
  · intro product _
    refine ⟨rfl, rfl, rfl, rfl, ?_, rfl, ?_⟩
    · cases hcat : product.category <;> simp [csvRow, hcat]
    · cases himg : product.images <;> simp [csvRow, himg]
  · intro text
    refine ⟨rfl, ?_, ?_⟩
    · rw [stripOuter_csvQuote]
      exact unescapeQuoteChars_escapeQuoteChars _
    · rw [stripOuter_csvQuote]
      exact quotesPaired_escapeQuoteChars _

/-- Instance of `exportToCSV_row_spec`: the row of a product whose title contains a
double quote. -/
theorem exportToCSV_row_spec_witness :
    quotedProduct ∈ renderTable quotedPage ∧
    (csvRow quotedProduct)[1]? = some (csvQuote quotedProduct.title) ∧
    unescapeQuoteChars (stripOuter (csvQuote quotedProduct.title).toList) =
      quotedProduct.title.toList :=
  ⟨by decide,
    ((exportToCSV_row_spec quotedPage).2.2.1 quotedProduct (by decide)).2.2.1,
    ((exportToCSV_row_spec quotedPage).2.2.2 quotedProduct.title).2.1⟩

end ProductAdmin
